import Mathlib

/-!
Verification of the tredoe/term repository (gap buffer, terminal mode
handling, and the question/quest prompt packages) against its
natural-language specification.

The Go source is embedded shallowly:

* machine integers become Int (Go ints are signed; decrements below zero
  matter for the gap-buffer indices);
* a Go slice of runes becomes a List Int; an out-of-range index access,
  which panics in Go, is modelled by Option.none;
* stateful methods become functions from the receiver record to a new
  record (plus Option for panics and a separate slot for returned errors);
* OS syscalls (sys.Getattr / sys.Setattr) and the external validation
  package (yoda/valid) are not part of the repository sources provided,
  so they are modelled from the specification where a claim needs them;
  each such definition carries a doc comment saying so.
-/

deriving instance DecidableEq for Except

namespace Term

/-! ## Gap buffer (package gapbuffer, file part_003) -/

/-- Indexed read of a Go rune slice: in Go, buf at index i panics unless
0 <= i < len(buf); none models the panic. -/
def listGet (l : List Int) (i : Int) : Option Int :=
  if 0 ≤ i then l[i.toNat]? else none

/-- Indexed write of a Go rune slice: in Go, writing buf at index i panics
unless 0 <= i < len(buf); none models the panic. -/
def listSet (l : List Int) (i : Int) (v : Int) : Option (List Int) :=
  if 0 ≤ i ∧ i.toNat < l.length then some (l.set i.toNat v) else none

/-- GapBuffer mirrors the Go struct: size, gapStart, gapEnd, bufEnd,
cursor, mode and the backing rune slice buf. WriteMode is an int
(Insert = 0, Overwrite = 1); it is never consulted by the operations. -/
structure GapBuffer where
  size : Int
  gapStart : Int
  gapEnd : Int
  bufEnd : Int
  cursor : Int
  mode : Int
  buf : List Int
deriving DecidableEq

/-- NewGapBuffer creates a GapBuffer using buf as its initial contents:
lastIndex = len(buf)-1; bufEnd = gapEnd = lastIndex; gapStart = lastIndex/2. -/
def newGapBuffer (buf : List Int) : GapBuffer :=
  let lastIndex : Int := (buf.length : Int) - 1
  { size := 0, gapStart := lastIndex / 2, gapEnd := lastIndex,
    bufEnd := lastIndex, cursor := 0, mode := 0, buf := buf }

/-- New creates a GapBuffer with the default initial length of 64 zeroed
runes (the 4096 capacity of the Go slice has no observable effect). -/
def newBuffer : GapBuffer :=
  newGapBuffer (List.replicate 64 0)

/-- NextChar moves the cursor to the next character.  Mirrors the Go body:
if cursor < len(buf) it increments cursor, gapStart and gapEnd, copies
buf at the new gapEnd into buf at the new cursor, zeroes buf at the new
gapEnd and returns true; otherwise it returns false.  none models an
index-out-of-range panic. -/
def nextChar (b : GapBuffer) : Option (Bool × GapBuffer) :=
  if b.cursor < (b.buf.length : Int) then
    match listGet b.buf (b.gapEnd + 1) with
    | none => none
    | some v =>
      match listSet b.buf (b.cursor + 1) v with
      | none => none
      | some buf1 =>
        match listSet buf1 (b.gapEnd + 1) 0 with
        | none => none
        | some buf2 =>
          some (true, { b with cursor := b.cursor + 1, gapStart := b.gapStart + 1,
                               gapEnd := b.gapEnd + 1, buf := buf2 })
  else some (false, b)

/-- PrevChar moves the cursor to the previous character.  Mirrors the Go
body: if cursor > 0 it decrements cursor, copies buf at the new cursor
into buf at gapEnd, zeroes buf at the new cursor, then decrements
gapStart and gapEnd and returns true; otherwise it returns false. -/
def prevChar (b : GapBuffer) : Option (Bool × GapBuffer) :=
  if b.cursor > 0 then
    match listGet b.buf (b.cursor - 1) with
    | none => none
    | some v =>
      match listSet b.buf b.gapEnd v with
      | none => none
      | some buf1 =>
        match listSet buf1 (b.cursor - 1) 0 with
        | none => none
        | some buf2 =>
          some (true, { b with cursor := b.cursor - 1, gapStart := b.gapStart - 1,
                               gapEnd := b.gapEnd - 1, buf := buf2 })
  else some (false, b)

/-- InsertChar inserts a character at the cursor position.  Mirrors the Go
body exactly: it writes buf at cursor, increments cursor, and returns a
nil error (the second component is the returned Go error, always none).
There is no capacity check and gapStart is not touched. -/
def insertChar (b : GapBuffer) (r : Int) : Option (GapBuffer × Option String) :=
  match listSet b.buf b.cursor r with
  | none => none
  | some buf1 => some ({ b with buf := buf1, cursor := b.cursor + 1 }, none)

/-- InsertChars inserts several characters, stopping at the first non-nil
error of InsertChar (which never occurs, since InsertChar always returns
a nil error). -/
def insertChars (b : GapBuffer) (rs : List Int) : Option (GapBuffer × Option String) :=
  match rs with
  | [] => some (b, none)
  | r :: rest =>
    match insertChar b r with
    | none => none
    | some (b1, some e) => some (b1, some e)
    | some (b1, none) => insertChars b1 rest

/-- Loop body of NextWord with an explicit iteration bound.  The Go loop
repeats NextChar until it returns false or the rune at the cursor is a
space (32); every successful NextChar raises the cursor by one while the
cursor stays below the buffer length, so the loop makes at most
(len(buf) - cursor) + 1 iterations, which is the fuel nextWord passes. -/
def nextWordFuel : Nat → GapBuffer → Option GapBuffer
  | 0, _ => none
  | fuel + 1, b =>
    match nextChar b with
    | none => none
    | some (false, b1) => some b1
    | some (true, b1) =>
      match listGet b1.buf b1.cursor with
      | none => none
      | some c => if c = 32 then some b1 else nextWordFuel fuel b1

/-- NextWord moves the cursor to the next word (see nextWordFuel for the
iteration bound, which the Go loop can never exhaust). -/
def nextWord (b : GapBuffer) : Option GapBuffer :=
  nextWordFuel (((b.buf.length : Int) - b.cursor).toNat + 1) b

/-- Loop body of PrevWord with an explicit iteration bound.  The Go loop
repeats PrevChar until it returns false or the rune before the cursor is
a space; every successful PrevChar lowers the positive cursor by one, so
the loop makes at most cursor + 1 iterations.  Reading buf at cursor-1
when the cursor has reached 0 panics in Go (none here). -/
def prevWordFuel : Nat → GapBuffer → Option GapBuffer
  | 0, _ => none
  | fuel + 1, b =>
    match prevChar b with
    | none => none
    | some (false, b1) => some b1
    | some (true, b1) =>
      match listGet b1.buf (b1.cursor - 1) with
      | none => none
      | some c => if c = 32 then some b1 else prevWordFuel fuel b1

/-- PrevWord moves the cursor to the previous word (see prevWordFuel for
the iteration bound, which the Go loop can never exhaust). -/
def prevWord (b : GapBuffer) : Option GapBuffer :=
  prevWordFuel (b.cursor.toNat + 1) b

/-- Logical text of a gap buffer as the specification defines it:
buf[0:gapStart] concatenated with buf[gapEnd+1:bufEnd+1]. -/
def logicalText (b : GapBuffer) : List Int :=
  b.buf.take b.gapStart.toNat ++
    (b.buf.drop (b.gapEnd + 1).toNat).take (b.bufEnd - b.gapEnd).toNat

/-- One editing operation of the sequences quantified over by the
equivalence claim: insert a rune, move forward, or move backward. -/
inductive GOp where
  | ins (r : Int)
  | next
  | prev
deriving DecidableEq

/-- Application of one operation to a gap buffer, discarding the returned
values as a driving loop would (none still models a panic). -/
def gapStep (b : GapBuffer) : GOp → Option GapBuffer
  | .ins r =>
    match insertChar b r with
    | none => none
    | some (b1, _) => some b1
  | .next =>
    match nextChar b with
    | none => none
    | some (_, b1) => some b1
  | .prev =>
    match prevChar b with
    | none => none
    | some (_, b1) => some b1

/-- Application of a sequence of operations to a gap buffer. -/
def gapRun (b : GapBuffer) : List GOp → Option GapBuffer
  | [] => some b
  | op :: rest =>
    match gapStep b op with
    | none => none
    | some b1 => gapRun b1 rest

/-- Modelled from the spec: the plain ordered-sequence-with-cursor
reference model of an editable line, against which the gap buffer is
compared. -/
structure RefModel where
  text : List Int
  cursor : Nat
deriving DecidableEq

/-- Modelled from the spec: insert places the rune at the cursor and
advances the cursor; the moves shift the cursor by one, clamped to the
text bounds. -/
def refStep (m : RefModel) : GOp → RefModel
  | .ins r => { text := m.text.take m.cursor ++ r :: m.text.drop m.cursor,
                cursor := m.cursor + 1 }
  | .next => if m.cursor < m.text.length then { m with cursor := m.cursor + 1 } else m
  | .prev => if 0 < m.cursor then { m with cursor := m.cursor - 1 } else m

/-- Modelled from the spec: run of the reference model from the empty line. -/
def refRun (m : RefModel) : List GOp → RefModel
  | [] => m
  | op :: rest => refRun (refStep m op) rest

/-- Reference model at line-read start: empty text, cursor at 0. -/
def refEmpty : RefModel := { text := [], cursor := 0 }

end Term

namespace Term

/-! ## Gap buffer lemmas -/

theorem insertChar_gapFields {b : GapBuffer} {c : Int} {b1 : GapBuffer}
    {e : Option String} (h : insertChar b c = some (b1, e)) :
    b1.gapStart = b.gapStart ∧ b1.gapEnd = b.gapEnd ∧ b1.bufEnd = b.bufEnd := by
  unfold insertChar at h
  split at h
  · exact absurd h (by simp)
  · simp only [Option.some.injEq, Prod.mk.injEq] at h
    rw [← h.1]
    exact ⟨rfl, rfl, rfl⟩

theorem nextChar_gap {b : GapBuffer} {r : Bool} {b1 : GapBuffer}
    (h : nextChar b = some (r, b1)) :
    (b1.gapStart = b.gapStart + 1 ∧ b1.gapEnd = b.gapEnd + 1 ∧ b1.bufEnd = b.bufEnd)
      ∨ b1 = b := by
  unfold nextChar at h
  split at h
  · split at h
    · exact absurd h (by simp)
    · split at h
      · exact absurd h (by simp)
      · split at h
        · exact absurd h (by simp)
        · simp only [Option.some.injEq, Prod.mk.injEq] at h
          rw [← h.2]
          exact Or.inl ⟨rfl, rfl, rfl⟩
  · simp only [Option.some.injEq, Prod.mk.injEq] at h
    exact Or.inr h.2.symm

theorem prevChar_gap {b : GapBuffer} {r : Bool} {b1 : GapBuffer}
    (h : prevChar b = some (r, b1)) :
    (b1.gapStart = b.gapStart - 1 ∧ b1.gapEnd = b.gapEnd - 1 ∧ b1.bufEnd = b.bufEnd)
      ∨ b1 = b := by
  unfold prevChar at h
  split at h
  · split at h
    · exact absurd h (by simp)
    · split at h
      · exact absurd h (by simp)
      · split at h
        · exact absurd h (by simp)
        · simp only [Option.some.injEq, Prod.mk.injEq] at h
          rw [← h.2]
          exact Or.inl ⟨rfl, rfl, rfl⟩
  · simp only [Option.some.injEq, Prod.mk.injEq] at h
    exact Or.inr h.2.symm

theorem nextChar_pres {b : GapBuffer} {r : Bool} {b1 : GapBuffer}
    (h : nextChar b = some (r, b1)) (hle : b.gapStart ≤ b.gapEnd) :
    b1.gapStart ≤ b1.gapEnd := by
  rcases nextChar_gap h with ⟨h1, h2, _⟩ | h1
  · omega
  · rw [h1]; exact hle

theorem prevChar_pres {b : GapBuffer} {r : Bool} {b1 : GapBuffer}
    (h : prevChar b = some (r, b1)) (hle : b.gapStart ≤ b.gapEnd) :
    b1.gapStart ≤ b1.gapEnd := by
  rcases prevChar_gap h with ⟨h1, h2, _⟩ | h1
  · omega
  · rw [h1]; exact hle

theorem insertChars_pres {rs : List Int} {b : GapBuffer} {b1 : GapBuffer}
    {e : Option String} (h : insertChars b rs = some (b1, e))
    (hle : b.gapStart ≤ b.gapEnd) : b1.gapStart ≤ b1.gapEnd := by
  induction rs generalizing b with
  | nil =>
    unfold insertChars at h
    simp only [Option.some.injEq, Prod.mk.injEq] at h
    rw [← h.1]; exact hle
  | cons r rest ih =>
    unfold insertChars at h
    split at h
    · exact absurd h (by simp)
    · rename_i b2 e2 heq
      simp only [Option.some.injEq, Prod.mk.injEq] at h
      rcases insertChar_gapFields heq with ⟨hg1, hg2, _⟩
      rw [← h.1, hg1, hg2]; exact hle
    · rename_i b2 heq
      rcases insertChar_gapFields heq with ⟨hg1, hg2, _⟩
      exact ih h (by rw [hg1, hg2]; exact hle)

theorem nextWordFuel_pres {fuel : Nat} {b b1 : GapBuffer}
    (h : nextWordFuel fuel b = some b1) (hle : b.gapStart ≤ b.gapEnd) :
    b1.gapStart ≤ b1.gapEnd := by
  induction fuel generalizing b with
  | zero => exact absurd h (by simp [nextWordFuel])
  | succ n ih =>
    unfold nextWordFuel at h
    split at h
    · exact absurd h (by simp)
    · rename_i b2 heq
      simp only [Option.some.injEq] at h
      rw [← h]; exact nextChar_pres heq hle
    · rename_i b2 heq
      split at h
      · exact absurd h (by simp)
      · split at h
        · simp only [Option.some.injEq] at h
          rw [← h]; exact nextChar_pres heq hle
        · exact ih h (nextChar_pres heq hle)

theorem prevWordFuel_pres {fuel : Nat} {b b1 : GapBuffer}
    (h : prevWordFuel fuel b = some b1) (hle : b.gapStart ≤ b.gapEnd) :
    b1.gapStart ≤ b1.gapEnd := by
  induction fuel generalizing b with
  | zero => exact absurd h (by simp [prevWordFuel])
  | succ n ih =>
    unfold prevWordFuel at h
    split at h
    · exact absurd h (by simp)
    · rename_i b2 heq
      simp only [Option.some.injEq] at h
      rw [← h]; exact prevChar_pres heq hle
    · rename_i b2 heq
      split at h
      · exact absurd h (by simp)
      · split at h
        · simp only [Option.some.injEq] at h
          rw [← h]; exact prevChar_pres heq hle
        · exact ih h (prevChar_pres heq hle)

end Term

namespace Term

/-! ## Claims about the gap buffer -/

/-- C1: the claim states that for every sequence of InsertChar / NextChar /
PrevChar operations on a freshly created GapBuffer the logical text
equals the reference-model string.  Already the one-operation sequence
consisting of InsertChar of rune 97 refutes it on the code: InsertChar
writes the rune at the cursor without consuming the gap (gapStart stays
at 31), so the logical text buf[0:gapStart] ++ buf[gapEnd+1:bufEnd+1]
is the rune followed by thirty zero runes, while the reference model
yields the one-rune string. -/
theorem gapBuffer_reference_divergence :
    (gapRun newBuffer [GOp.ins 97]).map logicalText
        = some (97 :: List.replicate 30 0) ∧
    (refRun refEmpty [GOp.ins 97]).text = [97] ∧
    (97 :: List.replicate 30 0 : List Int) ≠ [97] := by
  exact ⟨by decide, by decide, by decide⟩

/-- C4: the claim states that InsertChar fails with a CapacityExceeded
error exactly when gapStart = gapEnd, leaving the buffer unchanged, and
otherwise consumes gap capacity and advances cursor and gapStart.  On
the code, a buffer with gapStart = gapEnd (a one-rune NewGapBuffer)
makes InsertChar return a nil error while mutating the buffer, and
gapStart is never advanced. -/
theorem insertChar_no_capacity_check :
    (newGapBuffer [0]).gapStart = (newGapBuffer [0]).gapEnd ∧
    insertChar (newGapBuffer [0]) 97
      = some ({ size := 0, gapStart := 0, gapEnd := 0, bufEnd := 0, cursor := 1,
                mode := 0, buf := [97] }, none) := by
  exact ⟨by decide, by decide⟩

/-- Pre-state of the first invariant counterexample: the inequality chain
0 <= gapStart <= gapEnd <= bufEnd holds, the cursor is ahead of the gap
start (as InsertChar produces, since it never moves gapStart). -/
def cexState1 : GapBuffer :=
  { size := 0, gapStart := 0, gapEnd := 2, bufEnd := 3, cursor := 2, mode := 0,
    buf := [0, 0, 0, 0] }

/-- Pre-state of the second invariant counterexample: the chain holds and
the gap sits at bufEnd inside a longer backing slice. -/
def cexState2 : GapBuffer :=
  { size := 0, gapStart := 5, gapEnd := 5, bufEnd := 5, cursor := 3, mode := 0,
    buf := List.replicate 10 0 }

/-- C3 counterexample: from states satisfying 0 <= gapStart <= gapEnd <=
bufEnd, a completed PrevChar can drive gapStart to -1 and a completed
NextChar can push gapEnd past bufEnd, so the full inequality chain is
not preserved by every operation. -/
theorem gapInvariant_not_preserved :
    (0 ≤ cexState1.gapStart ∧ cexState1.gapStart ≤ cexState1.gapEnd ∧
       cexState1.gapEnd ≤ cexState1.bufEnd) ∧
    (prevChar cexState1).map (fun p => p.2.gapStart) = some (-1) ∧ ¬(0 : Int) ≤ -1 ∧
    (0 ≤ cexState2.gapStart ∧ cexState2.gapStart ≤ cexState2.gapEnd ∧
       cexState2.gapEnd ≤ cexState2.bufEnd) ∧
    (nextChar cexState2).map (fun p => (p.2.gapEnd, p.2.bufEnd)) = some (6, 5) ∧
    ¬(6 : Int) ≤ 5 := by
  exact ⟨by decide, by decide, by decide, by decide, by decide, by decide⟩

/-- C3 amended: starting from any state satisfying 0 <= gapStart <= gapEnd
<= bufEnd, every operation that completes (returns without an
out-of-range panic) preserves gapStart <= gapEnd; the outer bounds
0 <= gapStart and gapEnd <= bufEnd are not preserved in general. -/
theorem gapStart_le_gapEnd_preserved (b : GapBuffer)
    (h1 : 0 ≤ b.gapStart) (h2 : b.gapStart ≤ b.gapEnd) (h3 : b.gapEnd ≤ b.bufEnd) :
    (∀ r b1, nextChar b = some (r, b1) → b1.gapStart ≤ b1.gapEnd) ∧
    (∀ r b1, prevChar b = some (r, b1) → b1.gapStart ≤ b1.gapEnd) ∧
    (∀ c b1 e, insertChar b c = some (b1, e) → b1.gapStart ≤ b1.gapEnd) ∧
    (∀ rs b1 e, insertChars b rs = some (b1, e) → b1.gapStart ≤ b1.gapEnd) ∧
    (∀ b1, nextWord b = some b1 → b1.gapStart ≤ b1.gapEnd) ∧
    (∀ b1, prevWord b = some b1 → b1.gapStart ≤ b1.gapEnd) := by
  refine ⟨?_, ?_, ?_, ?_, ?_, ?_⟩
  · exact fun r b1 h => nextChar_pres h h2
  · exact fun r b1 h => prevChar_pres h h2
  · intro c b1 e h
    rcases insertChar_gapFields h with ⟨hg1, hg2, _⟩
    rw [hg1, hg2]; exact h2
  · exact fun rs b1 e h => insertChars_pres h h2
  · exact fun b1 h => nextWordFuel_pres h h2
  · exact fun b1 h => prevWordFuel_pres h h2

/-- Witness for the amended C3 theorem: cexState1 satisfies the inequality
chain, and the InsertChar clause applied at rune 97 yields a concrete
post-state with gapStart at most gapEnd. -/
theorem gapStart_le_gapEnd_preserved_witness :
    (0 ≤ cexState1.gapStart ∧ cexState1.gapStart ≤ cexState1.gapEnd ∧
       cexState1.gapEnd ≤ cexState1.bufEnd) ∧
    ({ size := 0, gapStart := 0, gapEnd := 2, bufEnd := 3, cursor := 3, mode := 0,
       buf := [0, 0, 97, 0] } : GapBuffer).gapStart ≤
      ({ size := 0, gapStart := 0, gapEnd := 2, bufEnd := 3, cursor := 3, mode := 0,
         buf := [0, 0, 97, 0] } : GapBuffer).gapEnd := by
  refine ⟨⟨by decide, by decide, by decide⟩, ?_⟩
  exact (gapStart_le_gapEnd_preserved cexState1 (by decide) (by decide)
      (by decide)).2.2.1 97 _ none (by decide)

end Term

namespace Term

/-! ## Terminal (package term, file part_004) -/

/-- Go bit-clear a AND NOT m (the Go operator of the form ampersand-caret),
written as a AND (a XOR m) so that the kernel can evaluate it; the lemma
andNot_eq_ldiff certifies that it is the bitwise AND NOT. -/
def andNot (a m : Nat) : Nat := a &&& (a ^^^ m)

theorem testBit_andNot (a m k : Nat) :
    (andNot a m).testBit k = (a.testBit k && !(m.testBit k)) := by
  unfold andNot
  rw [Nat.testBit_land, Nat.testBit_xor]
  cases a.testBit k <;> cases m.testBit k <;> rfl

theorem andNot_eq_ldiff (a m : Nat) : andNot a m = Nat.ldiff a m := by
  apply Nat.eq_of_testBit_eq
  intro k
  rw [testBit_andNot, Nat.testBit_ldiff]

/-- Termios models sys.Termios: the input, output, control and local flag
words plus the control-character array, the latter as a total function
from index to byte value.  Line speed and descriptor bookkeeping carried
by the real struct play no role in the embedded operations. -/
structure Termios where
  Iflag : Nat
  Oflag : Nat
  Cflag : Nat
  Lflag : Nat
  Cc : Nat → Nat

/-- Modelled from the spec: the termios constants of the sys package (its
sources are not provided); the values are the standard Linux ones.  The
claims only need the constants to be the fixed distinct bits and indices
they are on any one platform. -/
def BRKINT : Nat := 2
def IGNBRK : Nat := 1
def ICRNL : Nat := 256
def INLCR : Nat := 64
def IGNCR : Nat := 128
def ISTRIP : Nat := 32
def IXON : Nat := 1024
def PARMRK : Nat := 8
def OPOST : Nat := 1
def ECHO : Nat := 8
def ECHONL : Nat := 64
def ICANON : Nat := 2
def IEXTEN : Nat := 32768
def ISIG : Nat := 1
def CSIZE : Nat := 48
def PARENB : Nat := 256
def CS8 : Nat := 48
def VTIME : Nat := 5
def VMIN : Nat := 6

/-- Modelled from the spec: the bit flags of the unexported modeType (the
file defining them is not among the provided sources); the operations
only OR them in, clear them, and compare the word against zero. -/
def RawModeFlag : Nat := 1
def EchoModeFlag : Nat := 2
def CharModeFlag : Nat := 4
def OtherModeFlag : Nat := 8

/-- Terminal models the Go struct: the mode word, the original snapshot
oldState, the working snapshot lastState, and (a model field) the
attributes currently installed in the OS terminal device, which
sys.Setattr overwrites.  Setattr is modelled as always succeeding; a
syscall failure is a fatal terminal error outside these claims.  The
descriptors and reader/writer handles are not represented. -/
structure Terminal where
  mode : Nat
  oldState : Termios
  lastState : Termios
  device : Termios

/-- NewWithAll captures the device attributes with sys.Getattr into
lastState and copies them to oldState; the mode word starts at zero. -/
def newWithAll (dev : Termios) : Terminal :=
  { mode := 0, oldState := dev, lastState := dev, device := dev }

/-- Restore mirrors the Go body: only when the mode word is nonzero it
reapplies oldState with sys.Setattr, copies oldState into lastState and
zeroes the mode; it always returns a nil error on the modelled success
path of Setattr. -/
def restore (t : Terminal) : Terminal × Option String :=
  if t.mode ≠ 0 then
    ({ mode := 0, oldState := t.oldState, lastState := t.oldState,
       device := t.oldState }, none)
  else (t, none)

/-- RawMode mirrors the Go body: it clears the listed input flags, OPOST,
the listed local flags, clears CSIZE and PARENB and sets CS8, sets
Cc[VMIN] to 1 and then Cc[VTIME] to 0, applies the result with
sys.Setattr, and ORs the raw-mode bit into the mode word. -/
def rawMode (t : Terminal) : Terminal × Option String :=
  let ls : Termios :=
    { Iflag := andNot t.lastState.Iflag
        (BRKINT ||| IGNBRK ||| ICRNL ||| INLCR ||| IGNCR ||| ISTRIP ||| IXON ||| PARMRK),
      Oflag := andNot t.lastState.Oflag OPOST,
      Cflag := andNot t.lastState.Cflag (CSIZE ||| PARENB) ||| CS8,
      Lflag := andNot t.lastState.Lflag (ECHO ||| ECHONL ||| ICANON ||| IEXTEN ||| ISIG),
      Cc := Function.update (Function.update t.lastState.Cc VMIN 1) VTIME 0 }
  ({ t with lastState := ls, device := ls, mode := t.mode ||| RawModeFlag }, none)

/-- EchoMode mirrors the Go body: it sets or clears ECHO in the local
flags, applies the result, and then ORs in or clears the echo-mode bit
of the mode word depending on the argument. -/
def echoMode (t : Terminal) (echo : Bool) : Terminal × Option String :=
  let ls : Termios :=
    if echo then { t.lastState with Lflag := t.lastState.Lflag ||| ECHO }
    else { t.lastState with Lflag := andNot t.lastState.Lflag ECHO }
  ({ t with lastState := ls, device := ls,
            mode := if echo then t.mode ||| EchoModeFlag
                    else andNot t.mode EchoModeFlag }, none)

/-- CharMode mirrors the Go body: it clears ICANON, sets Cc[VTIME] to 0
and then Cc[VMIN] to 1, applies the result, and ORs in the
char-mode bit. -/
def charMode (t : Terminal) : Terminal × Option String :=
  let ls : Termios :=
    { t.lastState with
      Lflag := andNot t.lastState.Lflag ICANON,
      Cc := Function.update (Function.update t.lastState.Cc VTIME 0) VMIN 1 }
  ({ t with lastState := ls, device := ls, mode := t.mode ||| CharModeFlag }, none)

/-- SetMode mirrors the Go body: it applies the given state, stores it as
lastState and ORs in the other-mode bit. -/
def setMode (t : Terminal) (state : Termios) : Terminal × Option String :=
  ({ t with lastState := state, device := state,
            mode := t.mode ||| OtherModeFlag }, none)

/-- One mode-transition call, as quantified over by the frame claim. -/
inductive ModeOp where
  | raw
  | echo (enabled : Bool)
  | char
  | other (st : Termios)

/-- Application of one mode-transition call to a terminal. -/
def applyMode (t : Terminal) : ModeOp → Terminal
  | .raw => (rawMode t).1
  | .echo enabled => (echoMode t enabled).1
  | .char => (charMode t).1
  | .other st => (setMode t st).1

end Term

namespace Term

/-! ## Claims about the terminal -/

theorem andNot_land_eq_zero (a m s : Nat) (hs : s &&& m = s) :
    andNot a m &&& s = 0 := by
  apply Nat.eq_of_testBit_eq
  intro k
  have hsk : s.testBit k = (s.testBit k && m.testBit k) := by
    conv_lhs => rw [← hs]
    rw [Nat.testBit_land]
  rw [Nat.testBit_land, testBit_andNot, Nat.zero_testBit]
  cases h1 : Nat.testBit a k <;> cases h2 : Nat.testBit m k <;>
    cases h3 : Nat.testBit s k <;> simp_all

/-- C5: after RawMode the working snapshot (which is also the state the
call installs in the device) has ICANON, ECHO, ECHONL, ISIG and IEXTEN
cleared in the local flags, OPOST cleared in the output flags, and the
control characters set to VMIN = 1 and VTIME = 0. -/
theorem rawMode_flags (t : Terminal) :
    ((rawMode t).1.device = (rawMode t).1.lastState) ∧
    ((rawMode t).1.lastState.Lflag &&& ICANON = 0) ∧
    ((rawMode t).1.lastState.Lflag &&& ECHO = 0) ∧
    ((rawMode t).1.lastState.Lflag &&& ECHONL = 0) ∧
    ((rawMode t).1.lastState.Lflag &&& ISIG = 0) ∧
    ((rawMode t).1.lastState.Lflag &&& IEXTEN = 0) ∧
    ((rawMode t).1.lastState.Oflag &&& OPOST = 0) ∧
    ((rawMode t).1.lastState.Cc VMIN = 1) ∧
    ((rawMode t).1.lastState.Cc VTIME = 0) := by
  refine ⟨rfl, ?_, ?_, ?_, ?_, ?_, ?_, ?_, ?_⟩
  · exact andNot_land_eq_zero _ _ _ (by decide)
  · exact andNot_land_eq_zero _ _ _ (by decide)
  · exact andNot_land_eq_zero _ _ _ (by decide)
  · exact andNot_land_eq_zero _ _ _ (by decide)
  · exact andNot_land_eq_zero _ _ _ (by decide)
  · exact andNot_land_eq_zero _ _ _ (by decide)
  · show Function.update (Function.update t.lastState.Cc VMIN 1) VTIME 0 VMIN = 1
    rw [Function.update_noteq (by decide), Function.update_same]
  · show Function.update (Function.update t.lastState.Cc VMIN 1) VTIME 0 VTIME = 0
    rw [Function.update_same]

/-- Device attributes of the counterexample terminal: a terminal opened
with echo enabled (ECHO set in the local flags) and all else zero. -/
def echoOnDev : Termios :=
  { Iflag := 0, Oflag := 0, Cflag := 0, Lflag := ECHO, Cc := fun _ => 0 }

/-- C2 counterexample: EchoMode(false) is a mode transition, but applied to
a freshly captured terminal it clears the echo-mode bit of an already
zero mode word, so the following Restore call finds mode = 0 and
reapplies nothing: the device keeps the echo-disabled local flags
instead of the originally captured ones. -/
theorem restore_after_echoOff_keeps_changed_state :
    (newWithAll echoOnDev).oldState.Lflag = 8 ∧
    (restore (echoMode (newWithAll echoOnDev) false).1).1.device.Lflag = 0 ∧
    (restore (echoMode (newWithAll echoOnDev) false).1).2 = none ∧
    (0 : Nat) ≠ 8 := by
  refine ⟨rfl, rfl, rfl, by decide⟩

/-- C2 amended: Restore never returns an error and is idempotent (a second
call changes nothing), and whenever the mode word is nonzero — as after
RawMode, CharMode, SetMode or EchoMode(true), though not after
EchoMode(false) on a freshly captured terminal — the first call
reapplies the originally captured attributes to the device, copies them
into the working snapshot and zeroes the mode word. -/
theorem restore_idempotent (t : Terminal) :
    (restore t).2 = none ∧
    restore (restore t).1 = ((restore t).1, none) ∧
    (t.mode ≠ 0 →
      (restore t).1.device = t.oldState ∧
      (restore t).1.lastState = t.oldState ∧
      (restore t).1.mode = 0) := by
  unfold restore
  by_cases h : t.mode = 0
  · simp [h]
  · simp [h]

/-- Concrete terminal for the C2 witness: raw mode has been applied to a
freshly captured terminal, so the mode word is nonzero. -/
def rawTerm : Terminal := (rawMode (newWithAll echoOnDev)).1

/-- Witness for the amended C2 theorem at rawTerm: the mode word is
nonzero and the first Restore reapplies the captured attributes. -/
theorem restore_idempotent_witness :
    rawTerm.mode ≠ 0 ∧ (restore rawTerm).1.device = rawTerm.oldState := by
  refine ⟨by decide, ?_⟩
  exact ((restore_idempotent rawTerm).2.2 (by decide)).1

/-- C8: for every sequence of mode transitions applied to a terminal
created by NewWithAll, the original snapshot oldState still equals the
attributes captured at construction; mode transitions mutate only the
working snapshot, the device and the mode word. -/
theorem oldState_never_mutated (ops : List ModeOp) (dev : Termios) :
    (ops.foldl applyMode (newWithAll dev)).oldState = dev := by
  have key : ∀ (op : ModeOp) (t : Terminal), (applyMode t op).oldState = t.oldState := by
    intro op t
    cases op <;> rfl
  have gen : ∀ (l : List ModeOp) (t : Terminal),
      (l.foldl applyMode t).oldState = t.oldState := by
    intro l
    induction l with
    | nil => intro t; rfl
    | cons op rest ih =>
      intro t
      rw [List.foldl_cons, ih, key]
  exact gen ops (newWithAll dev)

end Term

namespace Term

/-! ## Question package (src/question/question.go) -/

/-- Classified validation errors, from the specification's taxonomy; the
valid package distinguishes ErrRequired, and the read loop treats it
like every other validation error (redisplay and retry). -/
inductive VErr where
  | required
  | outOfRange
  | typeMismatch
  | invalidChoice
  | patternMismatch
deriving DecidableEq

/-- Outcome of one call of line.Read inside the read loop: a line of input
or a failure of the underlying read. -/
inductive LineRead where
  | ok (s : String)
  | fail (msg : String)
deriving DecidableEq

/-- Error returned by Question.read: either the error of a failed
line.Read, or a validation error produced by the valid package. -/
inductive GoErr where
  | io (msg : String)
  | validation (e : VErr)
deriving DecidableEq

/-- Data kinds of the yoda type tags used by the Question readers. -/
inductive DataKind where
  | bool
  | int64
  | uint64
  | float64
  | str
  | int64Slice
  | uint64Slice
  | float64Slice
  | stringSlice
deriving DecidableEq

/-- Modelled from the spec: the validation Schema of the external
yoda/valid package (its sources are not provided).  The fields covered
by the claims: the declared kind, the default value Bydefault, the
modifier bit flags, the min and max bounds, and the IsSlice marker. -/
structure Schema where
  dataType : DataKind
  bydefault : String
  modifier : Nat
  min : Option Int
  max : Option Int
  isSlice : Bool
deriving DecidableEq

/-- Modelled from the spec: SetModifier stores the modifier bit flags. -/
def setModifier (flag : Nat) (s : Schema) : Schema :=
  { s with modifier := flag }

/-- Modelled from the spec: SetMin stores the minimum bound. -/
def setMin (n : Int) (s : Schema) : Schema :=
  { s with min := some n }

/-- Modelled from the spec: SetMax stores the maximum bound. -/
def setMax (n : Int) (s : Schema) : Schema :=
  { s with max := some n }

/-- Modelled from the spec: SetRange stores both bounds. -/
def setRange (lo hi : Int) (s : Schema) : Schema :=
  { s with min := some lo, max := some hi }

/-- Question mirrors the Go struct of package question: the schema and the
prompt strings (the terminal handle and the boolean display strings play
no role in the embedded operations). -/
structure QQuestion where
  schema : Schema
  promptStr : String
  suffixPrompt : String
deriving DecidableEq

/-- Prompt mirrors the Go body: it stores the new prompt string, clears
the schema's default value and sets the modifier flags to zero.  The
min and max bounds are not touched. -/
def questionPrompt (q : QQuestion) (str : String) : QQuestion :=
  { q with promptStr := str,
           schema := setModifier 0 { q.schema with bydefault := "" } }

/-- Question.Min, forwarding to the schema setter. -/
def questionMin (n : Int) (q : QQuestion) : QQuestion :=
  { q with schema := setMin n q.schema }

/-- Question.Max, forwarding to the schema setter. -/
def questionMax (n : Int) (q : QQuestion) : QQuestion :=
  { q with schema := setMax n q.schema }

/-- Question.Range, forwarding to the schema setter. -/
def questionRange (lo hi : Int) (q : QQuestion) : QQuestion :=
  { q with schema := setRange lo hi q.schema }

/-- Question.Default, storing the default value on the schema. -/
def questionDefault (str : String) (q : QQuestion) : QQuestion :=
  { q with schema := { q.schema with bydefault := str } }

/-- The part of newLine that can fail: for a non-slice prompt whose schema
carries a nonempty default and the bool kind, the default string itself
is validated with valid.Bool (to choose the rendering of the y/n hint),
and that error is returned from newLine.  The boolVal parameter stands
for valid.Bool with the configured token set. -/
def newLineCheck (s : Schema) (boolVal : String → Except VErr Bool) : Option VErr :=
  if ¬s.isSlice ∧ s.bydefault ≠ "" ∧ s.dataType = DataKind.bool then
    match boolVal s.bydefault with
    | .error e => some e
    | .ok _ => none
  else none

/-- The retry loop of Question.read over a stream of line reads: a failed
line.Read returns its error at once; a validation error of the current
input is absorbed and the loop re-reads with the same validator; a
validated value is returned together with the unconsumed remainder of
the stream.  none means the loop is still waiting for input.  The val
parameter stands for the valid.Bool / Int64 / Uint64 / Float64 / String
function selected by the schema's kind. -/
def readScalar (val : String → Except VErr α) :
    List LineRead → Option (Except String α × List LineRead)
  | [] => none
  | .fail m :: rest => some (.error m, rest)
  | .ok s :: rest =>
    match val s with
    | .error _ => readScalar val rest
    | .ok v => some (.ok v, rest)

/-- Question.read: newLine first (whose only modelled failure is the
validation of a bool schema's default value), then the retry loop. -/
def questionRead (s : Schema) (boolVal : String → Except VErr Bool)
    (val : String → Except VErr α) (inputs : List LineRead) :
    Option (Except GoErr α) :=
  match newLineCheck s boolVal with
  | some e => some (.error (.validation e))
  | none =>
    match readScalar val inputs with
    | none => none
    | some (.error m, _) => some (.error (.io m))
    | some (.ok v, _) => some (.ok v)

/-- Loop of the slice readers (ReadStringSlice, ReadInt64Slice,
ReadUint64Slice, ReadFloat64Slice) with an explicit iteration bound:
scalar reads are repeated until one yields the zero value of the kind
(empty string, zero number), which is not appended; an error of a
scalar read returns at once.  Every scalar read consumes at least one
input line, so the loop iterates at most once per available line, which
is the fuel readSlice passes. -/
def readSliceFuel [DecidableEq α] (val : String → Except VErr α) (zero : α) :
    Nat → List LineRead → Option (Except String (List α))
  | 0, _ => none
  | fuel + 1, inputs =>
    match readScalar val inputs with
    | none => none
    | some (.error m, _) => some (.error m)
    | some (.ok v, rest) =>
      if v = zero then some (.ok [])
      else
        match readSliceFuel val zero fuel rest with
        | none => none
        | some (.error m) => some (.error m)
        | some (.ok vs) => some (.ok (v :: vs))

/-- Slice reader over a stream of line reads (see readSliceFuel for the
iteration bound, which the Go loop can never exhaust). -/
def readSlice [DecidableEq α] (val : String → Except VErr α) (zero : α)
    (inputs : List LineRead) : Option (Except String (List α)) :=
  readSliceFuel val zero inputs.length inputs

end Term

namespace Term

/-! ## Claims about the question package -/

theorem readScalar_fail_mem {val : String → Except VErr α} {inputs : List LineRead}
    {m : String} {rest : List LineRead}
    (h : readScalar val inputs = some (.error m, rest)) : LineRead.fail m ∈ inputs := by
  induction inputs with
  | nil => exact absurd h (by simp [readScalar])
  | cons i tail ih =>
    cases i with
    | ok s =>
      rw [readScalar] at h
      split at h
      · exact List.mem_cons_of_mem _ (ih h)
      · exact absurd h (by simp)
    | fail m2 =>
      rw [readScalar] at h
      simp only [Option.some.injEq, Prod.mk.injEq, Except.error.injEq] at h
      rw [← h.1]
      exact List.mem_cons_self _ _

theorem readScalar_ok_mem {val : String → Except VErr α} {inputs : List LineRead}
    {v : α} {rest : List LineRead}
    (h : readScalar val inputs = some (.ok v, rest)) :
    ∃ s, LineRead.ok s ∈ inputs ∧ val s = .ok v := by
  induction inputs with
  | nil => exact absurd h (by simp [readScalar])
  | cons i tail ih =>
    cases i with
    | ok s =>
      rw [readScalar] at h
      split at h
      · rcases ih h with ⟨s2, hmem, hval⟩
        exact ⟨s2, List.mem_cons_of_mem _ hmem, hval⟩
      · rename_i v2 heq
        simp only [Option.some.injEq, Prod.mk.injEq, Except.ok.injEq] at h
        exact ⟨s, List.mem_cons_self _ _, by rw [heq, h.1]⟩
    | fail m2 =>
      rw [readScalar] at h
      simp at h

/-- Token-set boolean validator with tokens y and n, standing for
valid.Bool as configured by the default constructor. -/
def tokenBoolVal : String → Except VErr Bool := fun str =>
  if str = "y" then .ok true
  else if str = "n" then .ok false
  else .error .typeMismatch

/-- Schema of the C6 counterexample: a bool prompt whose default value is
not one of the boolean tokens. -/
def badBoolSchema : Schema :=
  { dataType := .bool, bydefault := "maybe", modifier := 0, min := none,
    max := none, isSlice := false }

/-- C6 counterexample: with a bool schema whose default value fails
boolean validation, Question.read returns that validation error through
newLine before any line is read — the input stream is empty and
contains no failed line read, yet a validation error escapes read. -/
theorem validationError_escapes_read :
    questionRead badBoolSchema tokenBoolVal tokenBoolVal ([] : List LineRead)
        = some (.error (.validation .typeMismatch)) ∧
    ∀ m, LineRead.fail m ∉ ([] : List LineRead) := by
  exact ⟨rfl, fun m => List.not_mem_nil _⟩

theorem readScalar_cons_ok {α : Type _} {val : String → Except VErr α} {s : String}
    {v : α} {rest : List LineRead} (hv : val s = .ok v) :
    readScalar val (LineRead.ok s :: rest) = some (.ok v, rest) := by
  rw [readScalar, hv]

theorem questionRead_loop {α : Type _} (s : Schema)
    (boolVal : String → Except VErr Bool) (val : String → Except VErr α)
    (inputs : List LineRead) (hnl : newLineCheck s boolVal = none) :
    questionRead s boolVal val inputs
      = match readScalar val inputs with
        | none => none
        | some (.error m, _) => some (.error (.io m))
        | some (.ok v, _) => some (.ok v) := by
  unfold questionRead
  rw [hnl]

/-- C6 amended: provided newLine itself does not fail — its only failure
validates a bool schema's nonempty default value — the retry loop never
lets a validation error escape: an error returned by read is the error
of a failed line read in the stream, and a returned value is the output
of the validator on one of the stream's lines; validation errors only
cause the loop to re-read with the same schema and validator, with no
bound on the number of retries. -/
theorem questionRead_error_policy {α : Type _} (s : Schema)
    (boolVal : String → Except VErr Bool) (val : String → Except VErr α)
    (inputs : List LineRead) (hnl : newLineCheck s boolVal = none) :
    (∀ m, questionRead s boolVal val inputs = some (.error (.io m)) →
        LineRead.fail m ∈ inputs) ∧
    (∀ e, questionRead s boolVal val inputs ≠ some (.error (.validation e))) ∧
    (∀ v, questionRead s boolVal val inputs = some (.ok v) →
        ∃ inp, LineRead.ok inp ∈ inputs ∧ val inp = .ok v) := by
  rw [questionRead_loop s boolVal val inputs hnl]
  cases hsc : readScalar val inputs with
  | none =>
    refine ⟨?_, ?_, ?_⟩
    · intro m h; exact absurd h (by simp)
    · intro e h; exact absurd h (by simp)
    · intro v h; exact absurd h (by simp)
  | some pr =>
    obtain ⟨r, rest⟩ := pr
    cases r with
    | error m2 =>
      refine ⟨?_, ?_, ?_⟩
      · intro m h
        simp only [Option.some.injEq, Except.error.injEq, GoErr.io.injEq] at h
        rw [← h]
        exact readScalar_fail_mem hsc
      · intro e h; exact absurd h (by simp)
      · intro v h; exact absurd h (by simp)
    | ok v2 =>
      refine ⟨?_, ?_, ?_⟩
      · intro m h; exact absurd h (by simp)
      · intro e h; exact absurd h (by simp)
      · intro v h
        simp only [Option.some.injEq, Except.ok.injEq] at h
        rw [← h]
        exact readScalar_ok_mem hsc

/-- Schema of the C6 and C7 witnesses: a plain int64 prompt with no
default. -/
def plainIntSchema : Schema :=
  { dataType := .int64, bydefault := "", modifier := 0, min := none,
    max := none, isSlice := false }

/-- Validator of the C6 witness: accepts the string 5 as the number 5. -/
def fiveVal : String → Except VErr Int := fun str =>
  if str = "5" then .ok 5 else .error .typeMismatch

/-- Witness for the amended C6 theorem: on a stream whose first line fails
validation and whose second parses, read retries past the first line
and returns the validated value of the second. -/
theorem questionRead_error_policy_witness :
    newLineCheck plainIntSchema tokenBoolVal = none ∧
    questionRead plainIntSchema tokenBoolVal fiveVal
        [LineRead.ok "x", LineRead.ok "5"] = some (.ok 5) ∧
    ∃ inp, LineRead.ok inp ∈ [LineRead.ok "x", LineRead.ok "5"] ∧
      fiveVal inp = .ok 5 := by
  refine ⟨by decide, by decide, ?_⟩
  exact (questionRead_error_policy plainIntSchema tokenBoolVal fiveVal
      [LineRead.ok "x", LineRead.ok "5"] (by decide)).2.2 5 (by decide)


theorem readSliceFuel_sentinel {α : Type _} [DecidableEq α]
    (val : String → Except VErr α) (zero : α) (z : String)
    (pairs : List (String × α)) (rest : List LineRead) (fuel : Nat)
    (hf : pairs.length < fuel)
    (hp : ∀ p ∈ pairs, val p.1 = .ok p.2 ∧ p.2 ≠ zero)
    (hz : val z = .ok zero) :
    readSliceFuel val zero fuel
        (pairs.map (fun p => LineRead.ok p.1) ++ LineRead.ok z :: rest)
      = some (.ok (pairs.map Prod.snd)) := by
  induction pairs generalizing fuel with
  | nil =>
    cases fuel with
    | zero => exact absurd hf (by simp)
    | succ n =>
      rw [readSliceFuel]
      simp only [List.map_nil, List.nil_append]
      rw [readScalar_cons_ok hz]
      simp
  | cons p ps ih =>
    cases fuel with
    | zero => exact absurd hf (by simp)
    | succ n =>
      have hph := hp p (List.mem_cons_self _ _)
      have hrec := ih n (by simpa using Nat.lt_of_succ_lt_succ hf)
        (fun q hq => hp q (List.mem_cons_of_mem _ hq))
      rw [readSliceFuel]
      simp only [List.map_cons, List.cons_append]
      rw [readScalar_cons_ok hph.1]
      simp [hph.2, hrec]

/-- C7: for every run of lines the validator maps to non-sentinel values,
followed by a line it maps to the sentinel (the zero value of the kind:
empty string for strings, zero for the numeric kinds), the slice reader
collects exactly the values before the sentinel, in order, and stops
there; the sentinel itself is not part of the returned slice. -/
theorem readSlice_sentinel {α : Type _} [DecidableEq α]
    (val : String → Except VErr α) (zero : α) (z : String)
    (pairs : List (String × α)) (rest : List LineRead)
    (hp : ∀ p ∈ pairs, val p.1 = .ok p.2 ∧ p.2 ≠ zero)
    (hz : val z = .ok zero) :
    readSlice val zero
        (pairs.map (fun p => LineRead.ok p.1) ++ LineRead.ok z :: rest)
      = some (.ok (pairs.map Prod.snd)) := by
  unfold readSlice
  exact readSliceFuel_sentinel val zero z pairs rest _ (by simp) hp hz

/-- String validator of the C7 witness, standing for valid.String with no
constraints configured. -/
def idStringVal : String → Except VErr String := fun str => .ok str

/-- Witness for the C7 theorem: the inputs a, b and the empty line yield
the slice of a and b; the empty sentinel line is not collected. -/
theorem readSlice_sentinel_witness :
    (∀ p ∈ [("a", "a"), ("b", "b")], idStringVal p.1 = .ok p.2 ∧ p.2 ≠ "") ∧
    readSlice idStringVal ""
        [LineRead.ok "a", LineRead.ok "b", LineRead.ok ""]
      = some (.ok ["a", "b"]) := by
  refine ⟨by decide, ?_⟩
  exact readSlice_sentinel idStringVal "" "" [("a", "a"), ("b", "b")] []
    (by decide) (by decide)

/-- Question value with cleared schema, used as the base of the C9
counterexample. -/
def freshQuestion : QQuestion :=
  { schema := { dataType := .int64, bydefault := "", modifier := 0,
                min := none, max := none, isSlice := false },
    promptStr := "", suffixPrompt := "" }

/-- C9 counterexample: a min bound configured before a Prompt call is
still configured after it — Prompt does not reset the min/max bounds,
so they leak into the next prompt's read. -/
theorem prompt_does_not_reset_bounds :
    (questionPrompt (questionMin 3 freshQuestion) "age?").schema.min = some 3 ∧
    some (3 : Int) ≠ (none : Option Int) := by
  exact ⟨rfl, by decide⟩

/-- C9 amended: Prompt resets the schema's default value and modifier
flags and installs the new prompt string, but leaves the min and max
bounds exactly as they were; the Schema is not fully single-use, since
configured bounds survive into the next prompt. -/
theorem prompt_resets_default_and_modifier (q : QQuestion) (str : String) :
    (questionPrompt q str).schema.bydefault = "" ∧
    (questionPrompt q str).schema.modifier = 0 ∧
    (questionPrompt q str).promptStr = str ∧
    (questionPrompt q str).schema.min = q.schema.min ∧
    (questionPrompt q str).schema.max = q.schema.max := by
  exact ⟨rfl, rfl, rfl, rfl, rfl⟩


/-! ## Quest package (src/quest/quest.go) -/

/-- Dynamically typed Go value (interface value) as passed to
quest.Question.Default; the constructors cover the scalar kinds the
quest readers produce. -/
inductive GoVal where
  | str (s : String)
  | int (n : Int)
  | boolean (b : Bool)
deriving DecidableEq

/-- Question mirrors the Go struct of package quest: the multiple-answer
marker, the prompt strings, the default value in display and typed
form, the boolean display strings with their extra token table, and the
modifier word.  The Validate handle and the terminal handle play no
role in the embedded operations. -/
structure QuestQuestion where
  isMultiple : Bool
  prefixStr : String
  errPrefixStr : String
  promptStr : String
  defString : String
  defValue : Option GoVal
  trueString : String
  falseString : String
  extraBool : List (String × Bool)
  mod : Nat
deriving DecidableEq

/-- Default mirrors the Go body: when the argument is the empty string
(checked with a type assertion to string), it returns the receiver
unchanged; otherwise it stores the argument as the default value.  The
receiver itself is returned in both cases for chaining. -/
def questDefault (q : QuestQuestion) (defv : GoVal) : QuestQuestion :=
  match defv with
  | .str "" => q
  | _ => { q with defValue := some defv }

/-- C10: calling Default with the empty string is a no-op — the stored
default value and the rest of the Question are unchanged, so an
empty-string default can never be installed — while calling it with
any other value stores that value; the (updated) Question itself is
the returned value in both cases. -/
theorem quest_default_empty_noop (q : QuestQuestion) :
    questDefault q (.str "") = q ∧
    (∀ v, v ≠ GoVal.str "" → questDefault q v = { q with defValue := some v }) := by
  refine ⟨rfl, ?_⟩
  intro v hv
  cases v with
  | str s =>
    unfold questDefault
    split
    · rename_i heq
      exact absurd heq hv
    · rfl
  | int n => rfl
  | boolean b => rfl

/-- Concrete quest Question for the C10 witness. -/
def quest0 : QuestQuestion :=
  { isMultiple := false, prefixStr := " + ", errPrefixStr := "  ERROR:",
    promptStr := "", defString := "", defValue := none, trueString := "y",
    falseString := "n", extraBool := [], mod := 0 }

/-- Witness for the C10 theorem: on quest0, Default of the empty string is
the identity, and Default of the string abc stores that string. -/
theorem quest_default_empty_noop_witness :
    questDefault quest0 (.str "") = quest0 ∧
    GoVal.str "abc" ≠ GoVal.str "" ∧
    questDefault quest0 (.str "abc")
      = { quest0 with defValue := some (.str "abc") } := by
  refine ⟨(quest_default_empty_noop quest0).1, by decide, ?_⟩
  exact (quest_default_empty_noop quest0).2 (.str "abc") (by decide)

end Term
